import Mathlib

/-!
Verification of the JMX-Controller orchestrator and JTL aggregator
(`app/app.py`, `app/parser.py`, `app/jm.py`).

CSV rows are modelled as lists of string fields; a result file is
`Option (List Row)` where `none` is an absent file and `some []` a
zero-length one.  Python floats are idealised as rationals, Python ints
as `Int`, and `round(x, 2)` as round-half-to-even on rationals.
-/

/-- One parsed CSV row: a list of string fields. -/
abbrev Row := List String

/-- A JTL result file: `none` when the file is absent, otherwise the parsed
rows (a zero-length file parses to `some []`). -/
abbrev JTLFile := Option (List Row)

/-- Python `str.lower()` (ASCII range, kernel-computable). -/
def lowerStr (s : String) : String :=
  ⟨s.data.map Char.toLower⟩

/-- Python `str.strip()`: drop whitespace from both ends
(kernel-computable). -/
def stripStr (s : String) : String :=
  ⟨((s.data.dropWhile Char.isWhitespace).reverse.dropWhile
      Char.isWhitespace).reverse⟩

/-- Parse the digits of a natural number; `none` unless the character list is
nonempty and all digits. -/
def parseDigits (cs : List Char) : Option Nat :=
  if cs ≠ [] ∧ cs.all Char.isDigit then
    some (cs.foldl (fun acc c => acc * 10 + (c.toNat - 48)) 0)
  else
    none

/-- Python `int(str(s).strip())`: trims whitespace, accepts an optional sign
followed by digits, otherwise fails. -/
def pyParseInt (s : String) : Option Int :=
  match (stripStr s).toList with
  | [] => none
  | c :: rest =>
    if c = '-' then (parseDigits rest).map (fun n => -(n : Int))
    else if c = '+' then (parseDigits rest).map (fun n => (n : Int))
    else (parseDigits (c :: rest)).map (fun n => (n : Int))

/-- `parser._to_int`: safe int conversion with a default. -/
def toIntD (s : String) (d : Int) : Int :=
  (pyParseInt s).getD d

/-- `app._equal_split`: split `total` into `n` parts as evenly as possible.
Python `//` and `%` are floor division and floor modulus (`Int.fdiv`,
`Int.fmod`). -/
def equal_split (total n : Int) : List Int :=
  if n ≤ 0 then []
  else
    let base := Int.fdiv total n
    let rem := Int.fmod total n
    (List.range n.toNat).map
      (fun (i : ℕ) => base + if (i : Int) < rem then 1 else 0)

/-- Header test used by `app._merge_jtls` (line 72): the first field equals
`"timeStamp"` exactly (case-sensitively).  The row has already been checked
nonempty by the `if not row` guard. -/
def isMergeHeader (r : Row) : Bool :=
  r.headD "" == "timeStamp"

/-- Header test used by `parser._is_header`: nonempty row whose first field
lowercases to `"timestamp"`. -/
def isHeaderRow (r : Row) : Bool :=
  !r.isEmpty && lowerStr (r.headD "") == "timestamp"

/-- Inner loop of `app._merge_jtls` over one input file's rows: blank rows are
skipped; a `"timeStamp"` row is written only if no header has been written yet
(tracked by `wroteHeader`); every other row is written through. -/
def mergeFileRows : List Row → Bool → List Row × Bool
  | [], w => ([], w)
  | r :: rest, w =>
    if r.isEmpty then mergeFileRows rest w
    else if isMergeHeader r then
      if w then mergeFileRows rest w
      else (r :: (mergeFileRows rest true).1, (mergeFileRows rest true).2)
    else (r :: (mergeFileRows rest w).1, (mergeFileRows rest w).2)

/-- Outer loop of `app._merge_jtls` over the input files: absent files and
zero-length files are skipped, others are copied with the shared
`wroteHeader` flag threaded through. -/
def mergeJtlsGo : List JTLFile → Bool → List Row
  | [], _ => []
  | none :: rest, w => mergeJtlsGo rest w
  | some rows :: rest, w =>
    if rows.isEmpty then mergeJtlsGo rest w
    else (mergeFileRows rows w).1 ++ mergeJtlsGo rest (mergeFileRows rows w).2

/-- `app._merge_jtls`: merge multiple CSV JTLs into one row list. -/
def merge_jtls (streams : List JTLFile) : List Row :=
  mergeJtlsGo streams false

/-- The claim's header notion: first field equals `"timestamp"`
case-insensitively (this is `parser._is_header`, not the test `_merge_jtls`
actually performs). -/
def isHeaderCI (r : Row) : Bool :=
  isHeaderRow r

/-- All rows of the present input streams in stream order. -/
def flatRows (streams : List JTLFile) : List Row :=
  (streams.filterMap id).flatten

/-- Data rows of a parsed file: blank rows and (case-insensitive) header rows
are skipped, as in the read loops of `parser.py`. -/
def dataRows (rows : List Row) : List Row :=
  rows.filter (fun r => !r.isEmpty && !isHeaderRow r)

/-- Round half to even (Python `round` on the idealised rational model). -/
def roundHalfEven (q : ℚ) : ℤ :=
  let f := ⌊q⌋
  let r := q - (f : ℚ)
  if r < 1 / 2 then f
  else if 1 / 2 < r then f + 1
  else if f % 2 = 0 then f else f + 1

/-- Python `round(x, 2)` on the rational model. -/
def round2 (q : ℚ) : ℚ :=
  (roundHalfEven (q * 100) : ℚ) / 100

/-- Success test from the `parser.py` loops:
`len(r) > SUCCESS_IDX and r[SUCCESS_IDX].strip().lower() == "true"`. -/
def successTrue (r : Row) : Bool :=
  match r.get? 7 with
  | some s => lowerStr (stripStr s) == "true"
  | none => false

/-- Field access pattern `_to_int(r[i], default=0)` guarded by `len(r) > i`,
contributing `0` when the row is too short. -/
def fieldIntD (r : Row) (i : ℕ) : Int :=
  match r.get? i with
  | some s => toIntD s 0
  | none => 0

/-- The all-zero metrics snapshot (`JTLParser._zero_metrics`). -/
structure MetricsSnapshot where
  hits_sec : ℚ
  passed : ℕ
  failed : ℕ
  active_threads : ℤ
  avg_resp_ms : ℚ
  throughput_bps : ℚ
  errors : ℕ
deriving Repr, DecidableEq

def zeroMetrics : MetricsSnapshot :=
  { hits_sec := 0, passed := 0, failed := 0, active_threads := 0,
    avg_resp_ms := 0, throughput_bps := 0, errors := 0 }

/-- The contents of the bounded deque in `tail_metrics`: the last
`max 1 window` data rows of the file. -/
def windowRows (all : List Row) (window : ℕ) : List Row :=
  (dataRows all).drop ((dataRows all).length - max 1 window)

/-- `JTLParser.tail_metrics`: windowed live metrics over the last `window`
data rows (the deque keeps `max 1 window` of them).  An absent or zero-length
file, or one with no data rows, yields `zeroMetrics`. -/
def tail_metrics (file : JTLFile) (window : ℕ) : MetricsSnapshot :=
  match file with
  | none => zeroMetrics
  | some all =>
    if all.isEmpty then zeroMetrics
    else
      let rows := windowRows all window
      if rows.isEmpty then zeroMetrics
      else
        let total := rows.length
        let first_ts := toIntD ((rows.headD []).headD "") 0
        let last_ts := toIntD ((rows.getLastD []).headD "") 0
        let dur_sec : ℚ := max 1 (((last_ts - first_ts : ℤ) : ℚ) / 1000)
        let passed := rows.countP successTrue
        let bytes_sum := (rows.map (fun r => fieldIntD r 9)).sum
        let elapsed_sum := (rows.map (fun r => fieldIntD r 1)).sum
        { hits_sec := round2 ((total : ℚ) / dur_sec),
          passed := passed,
          failed := total - passed,
          active_threads := fieldIntD (rows.getLastD []) 12,
          avg_resp_ms := round2 ((elapsed_sum : ℚ) / (max 1 total : ℕ)),
          throughput_bps := round2 ((bytes_sum : ℚ) / dur_sec),
          errors := total - passed }

/-- Result shape of `JTLParser.summary`. -/
structure SummaryResult where
  samples : ℕ
  passed : ℕ
  failed : ℕ
  avg_resp_ms : ℚ
  throughput_bps : ℚ
deriving Repr, DecidableEq

def zeroSummary : SummaryResult :=
  { samples := 0, passed := 0, failed := 0, avg_resp_ms := 0, throughput_bps := 0 }

/-- The first/last timestamp fold of `JTLParser.summary`: the parse default is
`None` while no first timestamp has been seen, `0` afterwards, and `None`
parses are skipped. -/
def summaryTsFold (rows : List Row) : Option Int × Option Int :=
  rows.foldl
    (fun p r =>
      let ts : Option Int :=
        match pyParseInt (r.headD "") with
        | some v => some v
        | none => if p.1 = none then none else some 0
      match ts with
      | none => p
      | some v => (if p.1 = none then some v else p.1, some v))
    (none, none)

/-- `JTLParser.summary`: whole-file aggregates.  An absent or zero-length file
yields the zero summary. -/
def summary (file : JTLFile) : SummaryResult :=
  match file with
  | none => zeroSummary
  | some all =>
    if all.isEmpty then zeroSummary
    else
      let dr := dataRows all
      let total := dr.length
      let passed := dr.countP successTrue
      let bytes_sum := (dr.map (fun r => fieldIntD r 9)).sum
      let resp_sum := (dr.map (fun r => fieldIntD r 1)).sum
      let ts := summaryTsFold dr
      let dur_sec : ℚ := max 1 ((((ts.2.getD 0) - (ts.1.getD 0) : ℤ) : ℚ) / 1000)
      { samples := total,
        passed := passed,
        failed := total - passed,
        avg_resp_ms := round2 ((resp_sum : ℚ) / (max 1 total : ℕ)),
        throughput_bps := round2 ((bytes_sum : ℚ) / dur_sec) }

/-- One reduced transaction record returned by
`JTLParser.recent_transactions`. -/
structure Txn where
  label : String
  success : Bool
  responseCode : String
  elapsed : Option Int
deriving Repr, DecidableEq

/-- Reduction of a data row to a transaction
(`recent_transactions`, lines 241-246 of `parser.py`). -/
def mkTxn (r : Row) : Txn :=
  { label := (r.get? 2).getD "unknown",
    success := successTrue r,
    responseCode := (r.get? 3).getD "",
    elapsed := (r.get? 1).bind pyParseInt }

/-- Python truthiness of the optional label filter: `None` and `""` are
falsy, so no filtering happens for them. -/
def filterActive : Option String → Bool
  | none => false
  | some f => f ≠ ""

/-- `label_filter.lower() in label.lower()`: case-insensitive substring
test on the character lists. -/
def labelMatches (f label : String) : Bool :=
  decide ((lowerStr f).toList <:+: (lowerStr label).toList)

/-- `JTLParser.recent_transactions`: the last `max 1 limit` data rows in file
order, reduced to transactions, kept only when the label filter (if truthy)
matches case-insensitively.  Absent and zero-length files yield `[]`. -/
def recent_transactions (file : JTLFile) (limit : ℕ) (lf : Option String) :
    List Txn :=
  match file with
  | none => []
  | some all =>
    if all.isEmpty then []
    else
      let dr := dataRows all
      let rows := dr.drop (dr.length - max 1 limit)
      rows.filterMap (fun r =>
        let tx := mkTxn r
        if filterActive lf then
          if labelMatches (lowerStr (lf.getD "")) tx.label then some tx else none
        else some tx)

/-- Accumulator of the `/status/<sid>` route (`totals` dict, lines 347-351
of `app.py`). -/
structure StatusTotals where
  hits_sec : ℚ
  passed : ℕ
  failed : ℕ
  active_threads : ℤ
  throughput_bps : ℚ
  errors : ℕ
  avg_resp_ms_sum : ℚ
  samples : ℕ
deriving Repr, DecidableEq

def zeroTotals : StatusTotals :=
  { hits_sec := 0, passed := 0, failed := 0, active_threads := 0,
    throughput_bps := 0, errors := 0, avg_resp_ms_sum := 0, samples := 0 }

/-- One iteration of the `/status` aggregation loop (lines 353-365): the
stream's `tail_metrics` snapshot is added field-wise, the average response
time weighted by `max 1 samples`. -/
def addStream (t : StatusTotals) (f : JTLFile) : StatusTotals :=
  let m := tail_metrics f 200
  let samples := m.passed + m.failed
  { hits_sec := t.hits_sec + m.hits_sec,
    passed := t.passed + m.passed,
    failed := t.failed + m.failed,
    active_threads := t.active_threads + m.active_threads,
    throughput_bps := t.throughput_bps + m.throughput_bps,
    errors := t.errors + m.errors,
    avg_resp_ms_sum := t.avg_resp_ms_sum + m.avg_resp_ms * ((max 1 samples : ℕ) : ℚ),
    samples := t.samples + samples }

/-- The `/status` totals over a session's streams. -/
def statusTotals (files : List JTLFile) : StatusTotals :=
  files.foldl addStream zeroTotals

/-- `avg_resp_ms` as computed at line 367 of `app.py`. -/
def statusAvgRespMs (files : List JTLFile) : ℚ :=
  (statusTotals files).avg_resp_ms_sum / ((max 1 (statusTotals files).samples : ℕ) : ℚ)

/-- A stream's sample count as used by `/status`:
`passed + failed` of its snapshot. -/
def samplesOf (f : JTLFile) : ℕ :=
  (tail_metrics f 200).passed + (tail_metrics f 200).failed

/-- The `/transactions/<sid>` route: each stream is read with the fixed
per-stream limit 50, the results concatenated in stream order, and only the
last 50 entries (`all_txns[-50:]`) returned. -/
def transactions (files : List JTLFile) (lf : Option String) : List Txn :=
  let all := (files.map (fun f => recent_transactions f 50 lf)).flatten
  all.drop (all.length - 50)

/-- A spawned worker process handle, abstracted by how it reacts to the stop
sequence: whether `terminate()` raises, whether `wait(timeout=5)` returns
within the grace period, and whether `kill()` raises. -/
structure ProcSpec where
  termRaises : Bool
  exitsInGrace : Bool
  killRaises : Bool
deriving Repr, DecidableEq

/-- A session registry entry (the `SESSIONS[sid]` dict of `app.py`). -/
structure Entry where
  status : String
  mode : String
  dist_mode : Option String
  split_method : Option String
  started_at : Option ℕ
  ended_at : Option ℕ
  jtls : List String
  proc : Option ProcSpec
  procs : Option (List ProcSpec)
deriving Repr, DecidableEq

/-- Outcome of a request handler: an HTTP JSON response with a status code,
or an uncaught Python exception. -/
inductive PyOutcome where
  | resp (message : String) (httpCode : ℕ)
  | crash (excType : String)
deriving Repr, DecidableEq

/-- Result of a `/start` request: the outcome, the registry after the call,
and the number of worker processes spawned during the call. -/
structure StartResult where
  outcome : PyOutcome
  sessions : List (String × Entry)
  spawned : ℕ
deriving Repr, DecidableEq

/-- The JSON payload of a `/start` request (fields read by `start_test`,
with `data.get` defaults already applied). -/
structure StartRequest where
  session_id : Option String
  mode : String
  remote_hosts : String
  dist_mode : String
  split_method : String
  per_host_tps : List (String × Int)
  per_host_threads : List (String × Int)
deriving Repr, DecidableEq

/-- Registry lookup, `sid in SESSIONS` / `SESSIONS[sid]`. -/
def lookupSession (sessions : List (String × Entry)) (sid : String) :
    Option Entry :=
  (sessions.find? (fun p => p.1 == sid)).map Prod.snd

/-- `app.start_test` outside the Vercel demo deployment (note that `IS_VERCEL`
itself evaluates `os.environ` although `app.py` never imports `os`).  After
the `if not sid or sid not in SESSIONS` guard, line 142 executes
`entry = SESSIONS.get[sid]`, which subscripts the bound method `dict.get` and
raises `TypeError` for every known session, before any session field is read
or written and before any worker is spawned; lines 143-280 (the
already-running check, the sanity/replicate/split-equal branches and the
`"Unknown mode"` rejection) are unreachable. -/
def start_test (sessions : List (String × Entry)) (req : StartRequest) :
    StartResult :=
  match req.session_id with
  | none => ⟨.resp "Invalid session" 400, sessions, 0⟩
  | some sid =>
    if sid = "" then ⟨.resp "Invalid session" 400, sessions, 0⟩
    else if (lookupSession sessions sid).isNone then
      ⟨.resp "Invalid session" 400, sessions, 0⟩
    else
      ⟨.crash "TypeError", sessions, 0⟩

/-- Observable process-control calls issued by `stop_test`. -/
inductive ProcEvent where
  | terminate (i : ℕ)
  | wait (i : ℕ) (timeout : ℕ)
  | kill (i : ℕ)
deriving Repr, DecidableEq

/-- The per-process stop sequence of `stop_test` (lines 300-319 of `app.py`):
`terminate()` inside a `try`; on success `wait(timeout=5)`, and `kill()` if
the wait raises; any exception from `terminate` or `kill` is swallowed by
the outer `except`. -/
def stopOneEvents (i : ℕ) (p : ProcSpec) : List ProcEvent :=
  if p.termRaises then [.terminate i]
  else if p.exitsInGrace then [.terminate i, .wait i 5]
  else [.terminate i, .wait i 5, .kill i]

/-- The workers `stop_test` iterates over: the `procs` list when it is truthy
(non-`None` and nonempty), otherwise the single `proc` when present. -/
def procsToStop (e : Entry) : List ProcSpec :=
  match e.procs with
  | some ps => if ps.isEmpty then e.proc.toList else ps
  | none => e.proc.toList

/-- Result of a `/stop` request: the updated entry, the process-control calls
issued, the successive writes to `entry["status"]`, and the response
message. -/
structure StopResult where
  entry : Entry
  events : List ProcEvent
  statusWrites : List String
  message : String
deriving Repr, DecidableEq

/-- `app.stop_test` on a known session's entry, with `now` the clock reading
`time.time()` taken at line 321, when the stop is issued (the workers' actual
exits are not waited on beyond the grace period). -/
def stop_test (e : Entry) (now : ℕ) : StopResult :=
  if e.status ≠ "running" then ⟨e, [], [], "Not running"⟩
  else
    let ps := procsToStop e
    let evs := (ps.enum.map (fun ip => stopOneEvents ip.1 ip.2)).flatten
    ⟨{ e with status := "stopped", ended_at := some now }, evs,
      ["stopping", "stopped"], "stopping"⟩

/-- An atomic write to the shared session entry performed by the `/stop`
handler or by a completion-monitor thread. -/
inductive SessAction where
  | setStatus (s : String)
  | setEnded (t : ℕ)
deriving Repr, DecidableEq

/-- Writes of a completion monitor (`_monitor`, `_monitor_repl`,
`_monitor_all`): they occur only after every `p.wait()` has returned,
i.e. after the last worker of the set has exited with the given codes. -/
def monitorActs (codes : List Int) (t : ℕ) : List SessAction :=
  [.setStatus (if codes.all (fun c => c == 0) then "finished" else "error"),
   .setEnded t]

/-- Session-state writes of `stop_test` on a running session, in program
order: `"stopping"` (line 296), the end timestamp (line 321), `"stopped"`
(line 322). -/
def stopActs (t : ℕ) : List SessAction :=
  [.setStatus "stopping", .setEnded t, .setStatus "stopped"]

/-- All interleavings of two threads' action sequences, fuelled so the
recursion is structural (the fuel is never exhausted when it bounds the
total length). -/
def interleavingsAux : ℕ → List SessAction → List SessAction → List (List SessAction)
  | 0, xs, ys => [xs ++ ys]
  | _ + 1, [], ys => [ys]
  | _ + 1, x :: xs, [] => [x :: xs]
  | n + 1, x :: xs, y :: ys =>
    (interleavingsAux n xs (y :: ys)).map (fun t => x :: t) ++
      (interleavingsAux n (x :: xs) ys).map (fun t => y :: t)

/-- All interleavings of two threads' action sequences. -/
def interleavings (xs ys : List SessAction) : List (List SessAction) :=
  interleavingsAux (xs.length + ys.length) xs ys

/-- Apply one write to the (status, ended_at) pair of the shared entry. -/
def applyAct (st : String × Option ℕ) : SessAction → String × Option ℕ
  | .setStatus s => (s, st.2)
  | .setEnded t => (st.1, some t)

/-- Run a sequence of writes on the shared (status, ended_at) state. -/
def runActs (st : String × Option ℕ) (acts : List SessAction) :
    String × Option ℕ :=
  acts.foldl applyAct st

/-- A write of a terminal session state. -/
def isTerminalWrite : SessAction → Bool
  | .setStatus s => s == "finished" || s == "error" || s == "stopped"
  | _ => false

/-- A write of the end timestamp. -/
def isEndedWrite : SessAction → Bool
  | .setEnded _ => true
  | _ => false

/-- A freshly uploaded session entry, as created by `upload_jmx`. -/
def demoEntry : Entry :=
  { status := "uploaded", mode := "sanity", dist_mode := none,
    split_method := none, started_at := none, ended_at := none,
    jtls := ["result.jtl"], proc := none, procs := none }

/-- A session entry already in state `"running"`. -/
def runningEntry : Entry :=
  { demoEntry with status := "running" }

/-- A running split-equal session with two workers: one that exits within the
grace period, and one whose `terminate()` and `kill()` both raise. -/
def stopEntry : Entry :=
  { status := "running", mode := "distributed", dist_mode := some "split_equal",
    split_method := some "threads", started_at := some 5, ended_at := none,
    jtls := ["result-h1.jtl", "result-h2.jtl"], proc := none,
    procs := some [⟨false, true, false⟩, ⟨true, false, true⟩] }

/-- A valid sanity-mode start request for session `"s"`. -/
def sanityReq : StartRequest :=
  ⟨some "s", "sanity", "", "replicate", "tps", [], []⟩

/-- The spec's misconfiguration scenario: split-equal by user count with
hosts `["h1", "h2"]` but a per-host assignment list of length 1. -/
def distMismatchReq : StartRequest :=
  ⟨some "s", "distributed", "h1,h2", "split_equal", "threads", [], [("h1", 5)]⟩

/-- A JTL file holding exactly one data row. -/
def oneRowFile : JTLFile :=
  some [["0", "5", "lbl", "200", "msg", "t", "d", "true"]]

/-- Merge input where the second stream opens with a lowercase
`"timestamp"` row (a header under the claim's case-insensitive test, data
under the `_merge_jtls` test). -/
def mergeCase : List JTLFile :=
  [some [["x", "1"]], some [["timestamp"], ["timeStamp"], ["2"]]]

/-- The interleaving in which the stop handler finishes first and the
completion monitor (whose workers exited with code 143 after being killed)
writes afterwards. -/
def badTrace : List SessAction :=
  stopActs 10 ++ monitorActs [143] 20


/-! ## Theorems -/

/-- C1: a start request on a known session does not transition it to running
and acknowledge — `start_test` raises `TypeError` at
`entry = SESSIONS.get[sid]` (line 142 of `app.py`) for every known session,
whether it is not yet running or already running, spawning nothing and
leaving the registry unchanged. -/
theorem start_test_known_session_raises :
    start_test [("s", demoEntry)] sanityReq =
      ⟨.crash "TypeError", [("s", demoEntry)], 0⟩ ∧
    start_test [("s", runningEntry)] sanityReq =
      ⟨.crash "TypeError", [("s", runningEntry)], 0⟩ := by
  decide

/-- C2: the spec's misconfiguration scenario (split-equal by user count,
hosts `["h1","h2"]`, per-host list of length 1) is not rejected as a
configuration error: `start_test` raises `TypeError` at line 142 before
reaching the cardinality check, while an unknown session is still rejected
with a 400 response; in both cases nothing is spawned and the registry is
unchanged. -/
theorem start_test_config_error_crashes :
    start_test [("s", demoEntry)] distMismatchReq =
      ⟨.crash "TypeError", [("s", demoEntry)], 0⟩ ∧
    start_test [("s", demoEntry)] { distMismatchReq with session_id := some "zz" } =
      ⟨.resp "Invalid session" 400, [("s", demoEntry)], 0⟩ := by
  decide

/-- C6: `tail_metrics` and `summary` on an absent (`none`) or zero-length
(`some []`) stream return the all-zero snapshot, for every window size. -/
theorem empty_stream_zero_snapshot :
    ∀ w : ℕ,
      tail_metrics none w = zeroMetrics ∧
      tail_metrics (some []) w = zeroMetrics ∧
      summary none = zeroSummary ∧
      summary (some []) = zeroSummary :=
  fun _ => ⟨rfl, rfl, rfl, rfl⟩

/-- C4 counterexample: on `mergeCase` some stream has a case-insensitive
header, yet the merged output contains two case-insensitive header lines,
and its first row is a data row rather than the header — so the merged
output is not "exactly one header line followed by the data rows" under the
claim's case-insensitive header test. -/
theorem merge_header_detection_counterexample :
    (flatRows mergeCase).any isHeaderCI = true ∧
    (merge_jtls mergeCase).countP isHeaderCI = 2 ∧
    (merge_jtls mergeCase).headD [] = ["x", "1"] ∧
    isHeaderCI ["x", "1"] = false := by
  decide

/-- C9 counterexample: with `limit = 0` (which the claim's "every limit ≥ 0"
includes), `recent_transactions` still returns one record from a one-row
stream, because the window is floored at `max(1, limit)`. -/
theorem recent_transactions_limit_zero_counterexample :
    (recent_transactions oneRowFile 0 none).length = 1 ∧
    ¬(recent_transactions oneRowFile 0 none).length ≤ 0 := by
  decide

/-- C3 counterexample: the interleaving `badTrace`, in which the monitor
thread's writes follow a completed stop, is a legal interleaving; after the
stop's writes the session has settled to `("stopped", some 10)`, yet running
the full trace ends at `("error", some 20)` — a stopped session is rewritten
to `error` with a new end timestamp, and the terminal state and end
timestamp are each written twice, not once. -/
theorem stop_then_monitor_overwrites_stopped :
    badTrace ∈ interleavings (stopActs 10) (monitorActs [143] 20) ∧
    runActs ("running", none) (stopActs 10) = ("stopped", some 10) ∧
    runActs ("running", none) badTrace = ("error", some 20) ∧
    badTrace.countP isTerminalWrite = 2 ∧
    badTrace.countP isEndedWrite = 2 := by
  decide

/-- C10: for any session stream list, the transactions query returns at most
50 transactions: it is a suffix of the concatenation (in stream order) of the
per-stream reads (each with fixed limit 50), of length `min 50` the
concatenation's length — so when the concatenation exceeds 50 the earlier
streams' transactions are dropped. -/
theorem transactions_capped_at_50 (files : List JTLFile) (lf : Option String) :
    (transactions files lf).length ≤ 50 ∧
    (transactions files lf).length =
      min 50 ((files.map (fun f => recent_transactions f 50 lf)).flatten).length ∧
    transactions files lf <:+
      (files.map (fun f => recent_transactions f 50 lf)).flatten := by
  refine ⟨?_, ?_, List.drop_suffix _ _⟩ <;>
    simp only [transactions, List.length_drop] <;> omega

/-- Sum of the per-participant shares produced by the split body, as a
function of the cutoff `rem`. -/
theorem equal_split_sum_aux (base rem : Int) (hrem : 0 ≤ rem) (k : ℕ) :
    ((List.range k).map
        (fun (i : ℕ) => base + if (i : Int) < rem then 1 else 0)).sum
      = k * base + min rem k := by
  induction k with
  | zero => simpa using (min_eq_right hrem).symm
  | succ k ih =>
    rw [List.range_succ, List.map_append, List.sum_append]
    have hcast : ((k + 1 : ℕ) : Int) = (k : Int) + 1 := by push_cast; ring
    rw [hcast]
    simp only [List.map_cons, List.map_nil, List.sum_cons, List.sum_nil, ih]
    rcases le_or_lt rem (k : Int) with hk | hk
    · rw [min_eq_left hk, min_eq_left (by omega), if_neg (by omega)]
      ring
    · rw [min_eq_right hk.le, min_eq_right (by omega), if_pos hk]
      ring

/-- C5: for `total ≥ 0` and `n > 0`, `equal_split` returns `n` parts summing
to `total`, any two parts differ by at most 1, the first `total mod n` parts
are `total div n + 1` and the remaining parts `total div n`; for `n ≤ 0` it
returns the empty list. -/
theorem equal_split_correct (total n : Int) (htot : 0 ≤ total) (hn : 0 < n) :
    (equal_split total n).length = n.toNat ∧
    (equal_split total n).sum = total ∧
    (∀ a ∈ equal_split total n, ∀ b ∈ equal_split total n, a - b ≤ 1) ∧
    (∀ i : ℕ, (i : Int) < Int.fmod total n →
      (equal_split total n).get? i = some (Int.fdiv total n + 1)) ∧
    (∀ i : ℕ, Int.fmod total n ≤ (i : Int) → i < n.toNat →
      (equal_split total n).get? i = some (Int.fdiv total n)) ∧
    (∀ m : Int, m ≤ 0 → equal_split total m = []) := by
  have hn' : ¬n ≤ 0 := by omega
  have hfd : Int.fdiv total n = total / n := Int.fdiv_eq_ediv total (by omega)
  have hfm : Int.fmod total n = total % n := Int.fmod_eq_emod total (by omega)
  have hrem0 : 0 ≤ Int.fmod total n := hfm ▸ Int.emod_nonneg total (by omega)
  have hremn : Int.fmod total n < n := hfm ▸ Int.emod_lt_of_pos total hn
  refine ⟨?_, ?_, ?_, ?_, ?_, ?_⟩
  · rw [equal_split, if_neg hn', List.length_map, List.length_range]
  · rw [equal_split, if_neg hn',
      equal_split_sum_aux (Int.fdiv total n) (Int.fmod total n) hrem0 n.toNat]
    have hcast : ((n.toNat : ℕ) : Int) = n := Int.toNat_of_nonneg (by omega)
    rw [hcast, min_eq_left (by omega), hfd, hfm]
    have := Int.ediv_add_emod total n
    linarith
  · intro a ha b hb
    rw [equal_split, if_neg hn'] at ha hb
    obtain ⟨i, -, rfl⟩ := List.mem_map.1 ha
    obtain ⟨j, -, rfl⟩ := List.mem_map.1 hb
    split_ifs <;> omega
  · intro i hi
    have hlt : i < n.toNat := by omega
    rw [equal_split, if_neg hn', List.get?_map, List.get?_range hlt]
    simp [hi]
  · intro i h1 h2
    have hcnd : ¬((i : Int) < Int.fmod total n) := by omega
    rw [equal_split, if_neg hn', List.get?_map, List.get?_range h2]
    simp [hcnd]
  · intro m hm
    simp [equal_split, hm]

/-- Witness for `equal_split_correct` at `total = 7`, `n = 3` (and the empty
split at `n = -2`). -/
theorem equal_split_correct_witness :
    (equal_split 7 3).sum = 7 ∧ equal_split 7 (-2) = [] := by
  have h := equal_split_correct 7 3 (by decide) (by decide)
  exact ⟨h.2.1, h.2.2.2.2.2 (-2) (by decide)⟩

/-- A stream with zero samples is exactly a stream whose snapshot is the zero
snapshot: `passed + failed` counts the whole window, which is nonempty
whenever the snapshot is not the zero one. -/
theorem tail_metrics_eq_zero_of_samples (f : JTLFile) (h : samplesOf f = 0) :
    tail_metrics f 200 = zeroMetrics := by
  cases f with
  | none => rfl
  | some all =>
    by_cases h1 : all.isEmpty
    · simp [tail_metrics, h1]
    · by_cases h2 : (windowRows all 200).isEmpty
      · simp [tail_metrics, h1, h2]
      · exfalso
        have hsam : samplesOf (some all) =
            (windowRows all 200).countP successTrue +
              ((windowRows all 200).length -
                (windowRows all 200).countP successTrue) := by
          simp [samplesOf, tail_metrics, h1, h2]
        have hle : (windowRows all 200).countP successTrue ≤
            (windowRows all 200).length := List.countP_le_length successTrue
        have hne : windowRows all 200 ≠ [] := by
          simpa [List.isEmpty_iff] using h2
        have hpos : 0 < (windowRows all 200).length := List.length_pos.mpr hne
        omega

/-- Folding in a zero-sample stream leaves the status totals unchanged. -/
theorem addStream_eq_self (t : StatusTotals) (f : JTLFile)
    (h : samplesOf f = 0) : addStream t f = t := by
  have hz := tail_metrics_eq_zero_of_samples f h
  cases t
  simp [addStream, hz, zeroMetrics]

/-- Unrolling the `/status` accumulation loop from an arbitrary starting
accumulator: every field is the start value plus the sum of the per-stream
snapshot values (average response time weighted by `max 1 samples`). -/
theorem statusTotals_foldl (files : List JTLFile) : ∀ t : StatusTotals,
    ((files.foldl addStream t).hits_sec =
      t.hits_sec + (files.map (fun f => (tail_metrics f 200).hits_sec)).sum) ∧
    ((files.foldl addStream t).passed =
      t.passed + (files.map (fun f => (tail_metrics f 200).passed)).sum) ∧
    ((files.foldl addStream t).failed =
      t.failed + (files.map (fun f => (tail_metrics f 200).failed)).sum) ∧
    ((files.foldl addStream t).active_threads =
      t.active_threads +
        (files.map (fun f => (tail_metrics f 200).active_threads)).sum) ∧
    ((files.foldl addStream t).throughput_bps =
      t.throughput_bps +
        (files.map (fun f => (tail_metrics f 200).throughput_bps)).sum) ∧
    ((files.foldl addStream t).errors =
      t.errors + (files.map (fun f => (tail_metrics f 200).errors)).sum) ∧
    ((files.foldl addStream t).avg_resp_ms_sum =
      t.avg_resp_ms_sum +
        (files.map (fun f => (tail_metrics f 200).avg_resp_ms *
          ((max 1 (samplesOf f) : ℕ) : ℚ))).sum) ∧
    ((files.foldl addStream t).samples =
      t.samples + (files.map samplesOf).sum) := by
  induction files with
  | nil => intro t; simp
  | cons f rest ih =>
    intro t
    simp only [List.foldl_cons, List.map_cons, List.sum_cons]
    obtain ⟨e1, e2, e3, e4, e5, e6, e7, e8⟩ := ih (addStream t f)
    refine ⟨?_, ?_, ?_, ?_, ?_, ?_, ?_, ?_⟩
    · rw [e1]; simp [addStream]; ring
    · rw [e2]; simp [addStream]; omega
    · rw [e3]; simp [addStream]; omega
    · rw [e4]; simp [addStream]; omega
    · rw [e5]; simp [addStream]; ring
    · rw [e6]; simp [addStream]; omega
    · rw [e7]; simp [addStream, samplesOf]; ring
    · rw [e8]; simp [addStream, samplesOf]; omega

/-- Filtering out zero-sample streams does not change the accumulated
totals. -/
theorem statusTotals_filter_foldl (files : List JTLFile) :
    ∀ t : StatusTotals,
      (files.filter (fun f => samplesOf f != 0)).foldl addStream t =
        files.foldl addStream t := by
  induction files with
  | nil => intro t; rfl
  | cons f rest ih =>
    intro t
    by_cases h : samplesOf f = 0
    · have hb : (samplesOf f != 0) = false := by simp [h]
      simp only [List.filter_cons, hb, Bool.false_eq_true, if_false,
        List.foldl_cons]
      rw [ih t, addStream_eq_self t f h]
    · have hb : (samplesOf f != 0) = true := by simp [h]
      simp only [List.filter_cons, hb, if_true, List.foldl_cons]
      exact ih (addStream t f)

/-- C7: the `/status` aggregation sums the per-stream snapshot values for
passed, failed, active threads, errors and throughput, sums the sample
counts, computes the average response time as the weighted mean of the
per-stream averages weighted by `samples_i = passed_i + failed_i` with the
denominator floored at 1, and a zero-sample stream contributes nothing to
any field. -/
theorem status_aggregation_correct (files : List JTLFile) :
    ((statusTotals files).passed =
      (files.map (fun f => (tail_metrics f 200).passed)).sum) ∧
    ((statusTotals files).failed =
      (files.map (fun f => (tail_metrics f 200).failed)).sum) ∧
    ((statusTotals files).active_threads =
      (files.map (fun f => (tail_metrics f 200).active_threads)).sum) ∧
    ((statusTotals files).errors =
      (files.map (fun f => (tail_metrics f 200).errors)).sum) ∧
    ((statusTotals files).throughput_bps =
      (files.map (fun f => (tail_metrics f 200).throughput_bps)).sum) ∧
    ((statusTotals files).samples = (files.map samplesOf).sum) ∧
    (statusAvgRespMs files =
      (files.map (fun f => (tail_metrics f 200).avg_resp_ms *
        ((samplesOf f : ℕ) : ℚ))).sum /
        ((max 1 ((files.map samplesOf).sum) : ℕ) : ℚ)) ∧
    (statusTotals files =
      statusTotals (files.filter (fun f => samplesOf f != 0))) := by
  obtain ⟨e1, e2, e3, e4, e5, e6, e7, e8⟩ := statusTotals_foldl files zeroTotals
  have hterm :
      (fun f => (tail_metrics f 200).avg_resp_ms *
        ((max 1 (samplesOf f) : ℕ) : ℚ)) =
      (fun f => (tail_metrics f 200).avg_resp_ms * ((samplesOf f : ℕ) : ℚ)) := by
    funext f
    rcases Nat.eq_zero_or_pos (samplesOf f) with h0 | hpos
    · rw [h0, tail_metrics_eq_zero_of_samples f h0]
      simp [zeroMetrics]
    · rw [max_eq_right hpos]
  refine ⟨?_, ?_, ?_, ?_, ?_, ?_, ?_, ?_⟩
  · rw [show statusTotals files = files.foldl addStream zeroTotals from rfl,
      e2]; simp [zeroTotals]
  · rw [show statusTotals files = files.foldl addStream zeroTotals from rfl,
      e3]; simp [zeroTotals]
  · rw [show statusTotals files = files.foldl addStream zeroTotals from rfl,
      e4]; simp [zeroTotals]
  · rw [show statusTotals files = files.foldl addStream zeroTotals from rfl,
      e6]; simp [zeroTotals]
  · rw [show statusTotals files = files.foldl addStream zeroTotals from rfl,
      e5]; simp [zeroTotals]
  · rw [show statusTotals files = files.foldl addStream zeroTotals from rfl,
      e8]; simp [zeroTotals]
  · rw [statusAvgRespMs]
    rw [show statusTotals files = files.foldl addStream zeroTotals from rfl,
      e7, e8, hterm]
    simp [zeroTotals]
  · exact (statusTotals_filter_foldl files zeroTotals).symm

/-- Any interleaving of two threads' writes performs each thread's writes:
`countP` over an interleaving is the sum of the two threads' counts. -/
theorem interleavingsAux_countP (p : SessAction → Bool) :
    ∀ (n : ℕ) (xs ys tr : List SessAction), xs.length + ys.length ≤ n →
      tr ∈ interleavingsAux n xs ys →
      tr.countP p = xs.countP p + ys.countP p := by
  intro n
  induction n with
  | zero =>
    intro xs ys tr _ htr
    simp only [interleavingsAux, List.mem_singleton] at htr
    subst htr
    simp [List.countP_append]
  | succ n ih =>
    intro xs ys tr hlen htr
    cases xs with
    | nil =>
      simp only [interleavingsAux, List.mem_singleton] at htr
      subst htr
      simp
    | cons x xs2 =>
      cases ys with
      | nil =>
        simp only [interleavingsAux, List.mem_singleton] at htr
        subst htr
        simp
      | cons y ys2 =>
        simp only [interleavingsAux, List.mem_append, List.mem_map] at htr
        rcases htr with ⟨t, ht, rfl⟩ | ⟨t, ht, rfl⟩
        · have hc := ih xs2 (y :: ys2) t (by simp at hlen ⊢; omega) ht
          cases hpx : p x <;>
            simp [List.countP_cons, hc, hpx] <;> omega
        · have hc := ih (x :: xs2) ys2 t (by simp at hlen ⊢; omega) ht
          cases hpy : p y <;>
            simp [List.countP_cons, hc, hpy] <;> omega

/-- C3 (amended): along any interleaving of a stop request with the joint
completion monitor, the terminal state is written exactly twice — once by
the stop at stop-issue time and once by the monitor after the last worker
has exited — and likewise the end timestamp; the later writer overwrites
the earlier one, so a session settled to stopped can be rewritten to
finished or error. -/
theorem interleaving_writes_terminal_twice (ts tm : ℕ) (codes : List Int)
    (tr : List SessAction)
    (h : tr ∈ interleavings (stopActs ts) (monitorActs codes tm)) :
    tr.countP isTerminalWrite = 2 ∧ tr.countP isEndedWrite = 2 := by
  have h1 := interleavingsAux_countP isTerminalWrite _ _ _ tr le_rfl h
  have h2 := interleavingsAux_countP isEndedWrite _ _ _ tr le_rfl h
  have hB : isTerminalWrite (SessAction.setStatus "stopping") = false := by
    decide
  have hC : isTerminalWrite (SessAction.setStatus "stopped") = true := by
    decide
  have hD : isTerminalWrite (SessAction.setStatus
      (if codes.all (fun c => c == 0) then "finished" else "error")) = true := by
    by_cases hc : codes.all (fun c => c == 0) <;> simp [hc] <;> decide
  have c1 : (stopActs ts).countP isTerminalWrite = 1 := by
    simp [stopActs, List.countP_cons, hB, hC, isTerminalWrite]
  have c2 : (monitorActs codes tm).countP isTerminalWrite = 1 := by
    simp [monitorActs, List.countP_cons, hD, isTerminalWrite]
  have c3 : (stopActs ts).countP isEndedWrite = 1 := by
    simp [stopActs, List.countP_cons, isEndedWrite]
  have c4 : (monitorActs codes tm).countP isEndedWrite = 1 := by
    simp [monitorActs, List.countP_cons, isEndedWrite]
  rw [h1, h2, c1, c2, c3, c4]
  exact ⟨rfl, rfl⟩

/-- Witness for `interleaving_writes_terminal_twice` at the sequential
interleaving with exit codes `[0]`. -/
theorem interleaving_writes_terminal_twice_witness :
    (stopActs 10 ++ monitorActs [0] 20).countP isTerminalWrite = 2 ∧
    (stopActs 10 ++ monitorActs [0] 20).countP isEndedWrite = 2 :=
  interleaving_writes_terminal_twice 10 20 [0]
    (stopActs 10 ++ monitorActs [0] 20) (by decide)

/-- Every stop sequence starts by delivering the termination signal. -/
theorem terminate_mem_stopOneEvents (i : ℕ) (p : ProcSpec) :
    ProcEvent.terminate i ∈ stopOneEvents i p := by
  unfold stopOneEvents
  split_ifs <;> simp

/-- When `terminate` does not raise, the worker is waited on with the
5-second grace period. -/
theorem wait_mem_stopOneEvents (i : ℕ) (p : ProcSpec)
    (h : p.termRaises = false) : ProcEvent.wait i 5 ∈ stopOneEvents i p := by
  unfold stopOneEvents
  rw [h]
  split_ifs <;> simp_all

/-- When the worker does not exit within the grace period, it is killed. -/
theorem kill_mem_stopOneEvents (i : ℕ) (p : ProcSpec)
    (h1 : p.termRaises = false) (h2 : p.exitsInGrace = false) :
    ProcEvent.kill i ∈ stopOneEvents i p := by
  simp [stopOneEvents, h1, h2]

/-- C8: a stop request on a running session writes `"stopping"` then
`"stopped"`, records the end timestamp at the moment the stop is issued,
answers `"stopping"`, and for every worker: the termination signal is
delivered; unless `terminate` raised, the worker is waited on for the
5-second grace period; and a worker still alive after the grace period is
killed — all of this for arbitrary raise/exit behaviour of the workers. -/
theorem stop_test_correct (e : Entry) (now : ℕ) (h : e.status = "running") :
    (stop_test e now).entry.status = "stopped" ∧
    (stop_test e now).entry.ended_at = some now ∧
    (stop_test e now).statusWrites = ["stopping", "stopped"] ∧
    (stop_test e now).message = "stopping" ∧
    ∀ ip ∈ (procsToStop e).enum,
      ProcEvent.terminate ip.1 ∈ (stop_test e now).events ∧
      (ip.2.termRaises = false →
        ProcEvent.wait ip.1 5 ∈ (stop_test e now).events) ∧
      (ip.2.termRaises = false → ip.2.exitsInGrace = false →
        ProcEvent.kill ip.1 ∈ (stop_test e now).events) := by
  have hne : ¬(e.status ≠ "running") := by simp [h]
  have hstop : stop_test e now =
      ⟨{ e with status := "stopped", ended_at := some now },
        ((procsToStop e).enum.map (fun ip => stopOneEvents ip.1 ip.2)).flatten,
        ["stopping", "stopped"], "stopping"⟩ := by
    simp only [stop_test, if_neg hne]
  rw [hstop]
  refine ⟨rfl, rfl, rfl, rfl, ?_⟩
  intro ip hip
  have hsub : stopOneEvents ip.1 ip.2 ∈
      (procsToStop e).enum.map (fun q => stopOneEvents q.1 q.2) :=
    List.mem_map_of_mem _ hip
  exact ⟨List.mem_flatten_of_mem hsub (terminate_mem_stopOneEvents ip.1 ip.2),
    fun h1 => List.mem_flatten_of_mem hsub (wait_mem_stopOneEvents ip.1 ip.2 h1),
    fun h1 h2 =>
      List.mem_flatten_of_mem hsub (kill_mem_stopOneEvents ip.1 ip.2 h1 h2)⟩

/-- Witness for `stop_test_correct` on `stopEntry`: the session stops with
the issue-time timestamp, and the well-behaved first worker is terminated
and waited on. -/
theorem stop_test_correct_witness :
    (stop_test stopEntry 99).entry.status = "stopped" ∧
    (stop_test stopEntry 99).entry.ended_at = some 99 ∧
    ProcEvent.terminate 0 ∈ (stop_test stopEntry 99).events ∧
    ProcEvent.wait 0 5 ∈ (stop_test stopEntry 99).events := by
  have h := stop_test_correct stopEntry 99 rfl
  have hm := h.2.2.2.2 (0, ⟨false, true, false⟩) (by decide)
  exact ⟨h.1, h.2.1, hm.1, hm.2.1 rfl⟩

/-- Fusing a guarded build loop: mapping under a test equals filtering then
mapping. -/
theorem filterMap_guard_eq_filter_map (f : Row → Txn) (p : Txn → Bool)
    (l : List Row) :
    l.filterMap (fun r => if p (f r) then some (f r) else none) =
      (l.filter (fun r => p (f r))).map f := by
  induction l with
  | nil => rfl
  | cons r rest ih =>
    simp only [List.filterMap_cons, List.filter_cons]
    by_cases hp : p (f r) <;> simp [hp, ih]

/-- An unguarded build loop is a plain map. -/
theorem filterMap_some_eq_map (f : Row → Txn) (l : List Row) :
    l.filterMap (fun r => some (f r)) = l.map f := by
  induction l with
  | nil => rfl
  | cons r rest ih => simp [List.filterMap_cons, ih]

/-- Fusing the filter-and-reduce loop of `recent_transactions`: building
transactions while testing the label filter equals filtering the rows by the
(reduced) label and then reducing. -/
theorem recent_filterMap_eq (lf : Option String) (l : List Row) :
    (l.filterMap (fun r =>
      let tx := mkTxn r
      if filterActive lf then
        if labelMatches (lowerStr (lf.getD "")) tx.label then some tx else none
      else some tx)) =
    (l.filter (fun r =>
      !filterActive lf ||
        labelMatches (lowerStr (lf.getD "")) (mkTxn r).label)).map mkTxn := by
  by_cases hf : filterActive lf
  · have hfun : (fun (r : Row) =>
        let tx := mkTxn r
        if filterActive lf then
          if labelMatches (lowerStr (lf.getD "")) tx.label then some tx
          else none
        else some tx) =
        (fun (r : Row) =>
          if labelMatches (lowerStr (lf.getD "")) (mkTxn r).label
          then some (mkTxn r) else none) := by
      funext r
      simp [hf]
    have hpred : (fun (r : Row) =>
        !filterActive lf ||
          labelMatches (lowerStr (lf.getD "")) (mkTxn r).label) =
        (fun (r : Row) =>
          labelMatches (lowerStr (lf.getD "")) (mkTxn r).label) := by
      funext r
      simp [hf]
    rw [hfun, hpred,
      filterMap_guard_eq_filter_map mkTxn
        (fun tx => labelMatches (lowerStr (lf.getD "")) tx.label) l]
  · have hfun : (fun (r : Row) =>
        let tx := mkTxn r
        if filterActive lf then
          if labelMatches (lowerStr (lf.getD "")) tx.label then some tx
          else none
        else some tx) = (fun (r : Row) => some (mkTxn r)) := by
      funext r
      simp [hf]
    have hpred : (fun (r : Row) =>
        !filterActive lf ||
          labelMatches (lowerStr (lf.getD "")) (mkTxn r).label) =
        (fun (_ : Row) => true) := by
      funext r
      simp [hf]
    rw [hfun, hpred, filterMap_some_eq_map, List.filter_true]

/-- C9 (amended): `recent_transactions` yields the empty sequence on an
absent or zero-length stream and otherwise returns at most `max 1 limit`
records — the window is floored at one, so `limit = 0` still yields up to
one record — namely the last `max 1 limit` data rows in file order, kept
when the truthy label filter matches the reduced label case-insensitively,
each reduced to label, success, response code and elapsed. -/
theorem recent_transactions_spec (all : List Row) (limit : ℕ)
    (lf : Option String) :
    recent_transactions none limit lf = [] ∧
    recent_transactions (some []) limit lf = [] ∧
    (recent_transactions (some all) limit lf).length ≤ max 1 limit ∧
    recent_transactions (some all) limit lf =
      (((dataRows all).drop ((dataRows all).length - max 1 limit)).filter
        (fun r => !filterActive lf ||
          labelMatches (lowerStr (lf.getD "")) (mkTxn r).label)).map mkTxn := by
  by_cases hall : all.isEmpty
  · have hnil : all = [] := by simpa [List.isEmpty_iff] using hall
    subst hnil
    refine ⟨rfl, rfl, by simp [recent_transactions], ?_⟩
    simp [recent_transactions, dataRows]
  · refine ⟨rfl, rfl, ?_, ?_⟩
    · have hlen : ((dataRows all).drop
          ((dataRows all).length - max 1 limit)).length ≤ max 1 limit := by
        rw [List.length_drop]
        omega
      calc (recent_transactions (some all) limit lf).length
          ≤ ((dataRows all).drop
              ((dataRows all).length - max 1 limit)).length := by
            simp only [recent_transactions, hall, Bool.false_eq_true, if_false]
            exact List.length_filterMap_le _ _
        _ ≤ max 1 limit := hlen
    · simp only [recent_transactions, hall, Bool.false_eq_true, if_false]
      exact recent_filterMap_eq lf _

/-- Invariant of the per-file merge loop: the returned flag records whether a
`"timeStamp"` row has been seen; the non-header output rows are exactly the
non-blank non-`"timeStamp"` input rows in order; and the header rows kept are
none (when a header was already written) or the first `"timeStamp"` row of
the file. -/
theorem mergeFileRows_spec (rows : List Row) : ∀ w : Bool,
    ((mergeFileRows rows w).2 = (w || rows.any isMergeHeader)) ∧
    ((mergeFileRows rows w).1.filter (fun r => !isMergeHeader r) =
      rows.filter (fun r => !r.isEmpty && !isMergeHeader r)) ∧
    ((mergeFileRows rows w).1.filter (fun r => isMergeHeader r) =
      if w then [] else (rows.filter (fun r => isMergeHeader r)).take 1) := by
  induction rows with
  | nil =>
    intro w
    refine ⟨by simp [mergeFileRows], rfl, by simp [mergeFileRows]⟩
  | cons r rest ih =>
    intro w
    by_cases hb : r.isEmpty
    · have hr : r = [] := by simpa [List.isEmpty_iff] using hb
      have hbh : isMergeHeader r = false := by rw [hr]; rfl
      have key : mergeFileRows (r :: rest) w = mergeFileRows rest w := by
        simp [mergeFileRows, hb]
      obtain ⟨i1, i2, i3⟩ := ih w
      rw [key]
      refine ⟨?_, ?_, ?_⟩
      · simp [i1, List.any_cons, hbh]
      · simp [List.filter_cons, hb, i2]
      · simp [List.filter_cons, hbh, i3]
    · by_cases hh : isMergeHeader r
      · cases w with
        | true =>
          have key : mergeFileRows (r :: rest) true = mergeFileRows rest true := by
            simp [mergeFileRows, hb, hh]
          obtain ⟨i1, i2, i3⟩ := ih true
          rw [key]
          refine ⟨by simp [i1], ?_, by simp [i3]⟩
          · simp [List.filter_cons, hb, hh, i2]
        | false =>
          have key : mergeFileRows (r :: rest) false =
              (r :: (mergeFileRows rest true).1, (mergeFileRows rest true).2) := by
            simp [mergeFileRows, hb, hh]
          obtain ⟨i1, i2, i3⟩ := ih true
          rw [key]
          refine ⟨?_, ?_, ?_⟩
          · simp [i1, List.any_cons, hh]
          · simp [List.filter_cons, hh, hb, i2]
          · simp [List.filter_cons, hh, i3]
      · have key : mergeFileRows (r :: rest) w =
            (r :: (mergeFileRows rest w).1, (mergeFileRows rest w).2) := by
          simp [mergeFileRows, hb, hh]
        obtain ⟨i1, i2, i3⟩ := ih w
        rw [key]
        refine ⟨?_, ?_, ?_⟩
        · simp [i1, List.any_cons, hh]
        · simp [List.filter_cons, hh, hb, i2]
        · simp [List.filter_cons, hh, i3]

/-- Invariant of the cross-file merge loop, threading the shared
`wroteHeader` flag: data rows are the concatenation of the files' data rows,
and the kept header is the first `"timeStamp"` row of the concatenation
unless one was already written. -/
theorem mergeJtlsGo_spec (streams : List JTLFile) : ∀ w : Bool,
    ((mergeJtlsGo streams w).filter (fun r => !isMergeHeader r) =
      (flatRows streams).filter (fun r => !r.isEmpty && !isMergeHeader r)) ∧
    ((mergeJtlsGo streams w).filter (fun r => isMergeHeader r) =
      if w then []
      else ((flatRows streams).filter (fun r => isMergeHeader r)).take 1) := by
  induction streams with
  | nil =>
    intro w
    exact ⟨rfl, by simp [mergeJtlsGo, flatRows]⟩
  | cons f rest ih =>
    intro w
    cases f with
    | none =>
      have hkey : mergeJtlsGo (none :: rest) w = mergeJtlsGo rest w := by
        simp [mergeJtlsGo]
      have hflat : flatRows (none :: rest) = flatRows rest := by
        simp [flatRows, List.filterMap_cons]
      rw [hkey, hflat]
      exact ih w
    | some rows =>
      by_cases hre : rows.isEmpty
      · have hrows : rows = [] := by simpa [List.isEmpty_iff] using hre
        subst hrows
        have hkey : mergeJtlsGo (some [] :: rest) w = mergeJtlsGo rest w := by
          simp [mergeJtlsGo]
        have hflat : flatRows (some [] :: rest) = flatRows rest := by
          simp [flatRows, List.filterMap_cons]
        rw [hkey, hflat]
        exact ih w
      · have hkey : mergeJtlsGo (some rows :: rest) w =
            (mergeFileRows rows w).1 ++
              mergeJtlsGo rest (mergeFileRows rows w).2 := by
          simp [mergeJtlsGo, hre]
        have hflat : flatRows (some rows :: rest) = rows ++ flatRows rest := by
          simp [flatRows, List.filterMap_cons]
        obtain ⟨m1, m2, m3⟩ := mergeFileRows_spec rows w
        obtain ⟨r1, r2⟩ := ih (mergeFileRows rows w).2
        rw [hkey, hflat]
        constructor
        · rw [List.filter_append, m2, r1, List.filter_append]
        · rw [List.filter_append, m3, r2, m1, List.filter_append]
          cases w with
          | true => simp
          | false =>
            simp only [Bool.false_or, if_false, Bool.false_eq_true]
            cases hany : rows.any isMergeHeader with
            | true =>
              obtain ⟨x, hx, hpx⟩ := List.any_eq_true.mp hany
              have hne : rows.filter (fun r => isMergeHeader r) ≠ [] := by
                intro hcon
                exact absurd hpx (List.filter_eq_nil_iff.mp hcon x hx)
              obtain ⟨a, as, ha⟩ : ∃ a as,
                  rows.filter (fun r => isMergeHeader r) = a :: as := by
                cases hcase : rows.filter (fun r => isMergeHeader r) with
                | nil => exact absurd hcase hne
                | cons a as => exact ⟨a, as, rfl⟩
              simp [ha]
            | false =>
              have hnil : rows.filter (fun r => isMergeHeader r) = [] := by
                rw [List.filter_eq_nil_iff]
                intro a hamem
                exact List.any_eq_false.mp hany a hamem
              simp [hnil]

/-- C4 (amended): `_merge_jtls` recognises a header by the exact,
case-sensitive first field `"timeStamp"` (not case-insensitively); it writes
at most one such header line — the first `"timeStamp"` row across the
streams in stream order, kept in place rather than necessarily first — and
the remaining output is exactly the non-blank non-`"timeStamp"` rows of all
streams in stream order, with absent and empty streams skipped. -/
theorem merge_jtls_spec (streams : List JTLFile) :
    ((merge_jtls streams).countP (fun r => isMergeHeader r) =
      if (flatRows streams).any isMergeHeader then 1 else 0) ∧
    ((merge_jtls streams).filter (fun r => !isMergeHeader r) =
      (flatRows streams).filter (fun r => !r.isEmpty && !isMergeHeader r)) ∧
    ((merge_jtls streams).filter (fun r => isMergeHeader r) =
      ((flatRows streams).filter (fun r => isMergeHeader r)).take 1) := by
  obtain ⟨h1, h2⟩ := mergeJtlsGo_spec streams false
  have hm : merge_jtls streams = mergeJtlsGo streams false := rfl
  have h2' : (merge_jtls streams).filter (fun r => isMergeHeader r) =
      ((flatRows streams).filter (fun r => isMergeHeader r)).take 1 := by
    rw [hm, h2]
    simp
  refine ⟨?_, by rw [hm]; exact h1, h2'⟩
  rw [List.countP_eq_length_filter, h2', List.length_take]
  cases hany : (flatRows streams).any isMergeHeader with
  | true =>
    obtain ⟨x, hx, hpx⟩ := List.any_eq_true.mp hany
    have hne : (flatRows streams).filter (fun r => isMergeHeader r) ≠ [] := by
      intro hcon
      exact absurd hpx (List.filter_eq_nil_iff.mp hcon x hx)
    have hpos : 0 < ((flatRows streams).filter
        (fun r => isMergeHeader r)).length := List.length_pos.mpr hne
    simp only [if_true]
    omega
  | false =>
    have hnil : (flatRows streams).filter (fun r => isMergeHeader r) = [] := by
      rw [List.filter_eq_nil_iff]
      intro a hamem
      exact List.any_eq_false.mp hany a hamem
    simp [hnil]
